import Mathlib

/-!
Verification development for the NYCU-Bot multi-agent announcement pipeline.

The Python source (models.py, base_agent.py, coordinator_agents.py,
content_agent.py, social_agents_part1/2.py) is shallowly embedded below:
Python dicts (which preserve insertion order) become association lists with
first-match lookup, in-place update on existing keys and append on fresh keys;
async handlers become pure state-transition functions that also return the
list of messages they send over the bus; an unhandled Python exception inside
a handler is modelled by the handler returning `none`.
-/

namespace NYCU

/-- Python `dict` keyed by strings, as an insertion-ordered association list. -/
abbrev Dict (α : Type) := List (String × α)

/-- Python `d[k]` lookup: the first binding of `k` (Python dicts have unique keys). -/
def dlookup (k : String) : Dict α → Option α
  | [] => none
  | (k', v) :: t => if k' = k then some v else dlookup k t

/-- Python `d[k] = v`: update in place when `k` is present, else append at the end
(Python-dict insertion-order semantics). -/
def dinsert (k : String) (v : α) : Dict α → Dict α
  | [] => [(k, v)]
  | (k', v') :: t => if k' = k then (k', v) :: t else (k', v') :: dinsert k v t

/-- Python `del d[k]` (total: identity when the key is absent; call sites in the
source guard membership before deleting). -/
def derase (k : String) (d : Dict α) : Dict α :=
  d.filter (fun p => p.1 != k)

/-- Python `k in d`. -/
def dmem (k : String) (d : Dict α) : Bool :=
  (dlookup k d).isSome

/-- Python `list(d.keys())`. -/
def dkeys (d : Dict α) : List String :=
  d.map Prod.fst

/-- Predicate `matchAt p l`: the character list `p` occurs at the front of `l`. -/
def matchAt : List Char → List Char → Bool
  | [], _ => true
  | _ :: _, [] => false
  | a :: as, b :: bs => a == b && matchAt as bs

/-- Predicate `hasSub p l`: `p` occurs as a contiguous run somewhere in `l`. -/
def hasSub (p : List Char) : List Char → Bool
  | [] => p.isEmpty
  | c :: t => matchAt p (c :: t) || hasSub p t

/-- Python `pat in hay` on strings: substring containment. -/
def strContains (hay pat : String) : Bool :=
  hasSub pat.toList hay.toList

/-- Calendar date, standing in for the `datetime` publish date; only
equality and `%Y%m%d` formatting matter to the embedded code. -/
structure SDate where
  year : Nat
  month : Nat
  day : Nat
deriving DecidableEq, Repr

/-- Zero-pad a numeral string on the left to width `w`. -/
def padZeros (w : Nat) (s : String) : String :=
  String.mk (List.replicate (w - s.length) '0') ++ s

/-- Python `date.strftime("%Y%m%d")`. -/
def strftimeYmd (d : SDate) : String :=
  padZeros 4 (toString d.year) ++ padZeros 2 (toString d.month) ++ padZeros 2 (toString d.day)

/-- models.AwardAnnouncement. -/
structure Announcement where
  id : String
  title : String
  content : String
  url : String
  date : SDate
  image_url : Option String := none
deriving DecidableEq, Repr

/-- models.AwardAnnouncement.generate_id.  The source computes
`md5(title+content).hexdigest()[:8]` with the stdlib `hashlib` collaborator;
the digest function is passed in as the parameter `md5hex`, everything else
is the source's own string assembly
`f"award_\x7bdate:%Y%m%d\x7d_\x7bhash\x7d"`. -/
def generate_id (md5hex : String → String) (a : Announcement) : String :=
  "award_" ++ strftimeYmd a.date ++ "_" ++ ((md5hex (a.title ++ a.content)).take 8)

/-- FatherAgent._calculate_priority's fixed keyword list. -/
def high_priority_keywords : List String :=
  ["國際", "世界", "冠軍", "第一", "最佳", "傑出"]

/-- FatherAgent._calculate_priority: start at 5, `priority = min(priority+1, 10)`
for each keyword contained in the title. -/
def calculate_priority (a : Announcement) : Nat :=
  high_priority_keywords.foldl
    (fun p kw => if strContains a.title kw then min (p + 1) 10 else p) 5

/-- Number of keywords of the fixed set contained in a title (the keyword
list has no duplicates, so this is the count of distinct matched keywords). -/
def matchCount (title : String) : Nat :=
  (high_priority_keywords.filter (fun kw => strContains title kw)).length

/-- Announcement with a given title; the remaining fields are irrelevant to
priority computation. -/
def mkAnn (title : String) : Announcement :=
  { id := "a0", title := title, content := "c0", url := "u0", date := ⟨2024, 1, 1⟩ }

theorem priority_foldl (t : String) (l : List String) (p : Nat) (hp : p ≤ 10) :
    l.foldl (fun q kw => if strContains t kw then min (q + 1) 10 else q) p
      = min (p + (l.filter (fun kw => strContains t kw)).length) 10 := by
  induction l generalizing p with
  | nil => simp; omega
  | cons k tl ih =>
    simp only [List.foldl_cons, List.filter_cons]
    by_cases h : strContains t k
    · simp only [h, if_true]
      rw [ih (min (p + 1) 10) (by omega)]
      simp only [List.length_cons]
      omega
    · simp only [h, if_false, Bool.false_eq_true]
      rw [ih p hp]

/-- Claim C4: the Intake Coordinator's priority equals base 5 plus 1 per
matched keyword of the fixed set, capped at 10; it is deterministic and
monotone non-decreasing in the number of distinct matched keywords, and the
title "國際冠軍" (two keyword hits) yields priority 7. -/
theorem calculate_priority_rule (a1 a2 : Announcement)
    (h : matchCount a1.title ≤ matchCount a2.title) :
    calculate_priority a1 = min (5 + matchCount a1.title) 10 ∧
    calculate_priority a1 ≤ calculate_priority a2 ∧
    calculate_priority (mkAnn "國際冠軍") = 7 := by
  have e : ∀ b : Announcement, calculate_priority b = min (5 + matchCount b.title) 10 := by
    intro b
    unfold calculate_priority matchCount
    exact priority_foldl b.title high_priority_keywords 5 (by omega)
  refine ⟨e a1, ?_, by decide⟩
  rw [e a1, e a2]
  omega

theorem calculate_priority_rule_witness :
    matchCount (mkAnn "冠軍").title ≤ matchCount (mkAnn "國際冠軍").title ∧
    calculate_priority (mkAnn "冠軍") ≤ calculate_priority (mkAnn "國際冠軍") :=
  ⟨by decide, (calculate_priority_rule (mkAnn "冠軍") (mkAnn "國際冠軍") (by decide)).2.1⟩

/-- Claim C7: generate_id is a deterministic content fingerprint — it depends
only on the digest of title+body together with the publish date, so any two
announcements agreeing on title, body and date receive the same id. -/
theorem generate_id_fingerprint (f : String → String) (a b : Announcement)
    (hhash : f (a.title ++ a.content) = f (b.title ++ b.content))
    (hdate : a.date = b.date) :
    generate_id f a = generate_id f b ∧
    (∀ c d : Announcement, c.title = d.title → c.content = d.content →
      c.date = d.date → generate_id f c = generate_id f d) := by
  constructor
  · unfold generate_id
    rw [hhash, hdate]
  · intro c d h1 h2 h3
    unfold generate_id
    rw [h1, h2, h3]

/-- Two announcements agreeing on title, body and date but differing in id,
url and image. -/
def annU : Announcement :=
  { id := "x", title := "T", content := "C", url := "u1", date := ⟨2024, 5, 6⟩ }

def annV : Announcement :=
  { id := "y", title := "T", content := "C", url := "u2", date := ⟨2024, 5, 6⟩,
    image_url := some "img" }

theorem generate_id_fingerprint_witness :
    generate_id (fun s => s) annU = generate_id (fun s => s) annV :=
  (generate_id_fingerprint (fun s => s) annU annV rfl rfl).1

/-- models.GeneratedContent. -/
structure GeneratedContent where
  title_zh : String
  title_en : String
  content_zh : String
  content_en : String
  hashtags_zh : List String
  hashtags_en : List String
  platform_specific : Dict String := []
deriving DecidableEq, Repr

/-- models.PostResult. -/
structure PostResult where
  success : Bool
  platform : String
  post_id : Option String := none
  url : Option String := none
  error : Option String := none
deriving DecidableEq, Repr

/-- The `status` field of a MotherAgent task record:
`'generating_content'` on creation, `'posting'` once content is back. -/
inductive TaskStatus where
  | generating_content
  | posting
deriving DecidableEq, Repr

/-- One entry of MotherAgent.active_tasks (the `started_at` wall-clock field
is dropped: nothing in the source ever reads it; the `post_results` field is
kept although the source only ever initialises it to `\x7b\x7d`). -/
structure TaskRec where
  announcement : Announcement
  status : TaskStatus
  generated_content : Option GeneratedContent := none
  post_results : Dict PostResult := []
deriving DecidableEq, Repr

/-- A message sent on the bus by a coordinator handler, reduced to the fields
the coordinators themselves read back (receiver, correlation ids, status and
the per-platform result breakdown of a STATUS_UPDATE). -/
inductive SentMsg where
  | task_assignment (receiver : String) (ann : Announcement) (task_id : String)
  | post_request (receiver : String) (task_id : String)
  | status_update (receiver : String) (status : String) (announcement_id : String)
      (results : List (String × Bool × Option String × Option String))
deriving DecidableEq, Repr

/-- MotherAgent's mutable state: `active_tasks` and `results_buffer`. -/
structure MotherState where
  active_tasks : Dict TaskRec
  results_buffer : Dict (Dict PostResult)
deriving DecidableEq, Repr

/-- MotherAgent.platform_agents. -/
def platform_agents : List String :=
  ["TwitterAgent", "FacebookAgent", "InstagramAgent", "LinkedInAgent", "RedditAgent"]

/-- Source `expected_count = len(self.platform_agents)` in _handle_post_result. -/
def expected_count : Nat :=
  platform_agents.length

/-- MotherAgent._handle_task_assignment: on a missing announcement log and
return; otherwise key a fresh record under `announcement.id` (a plain dict
store, overwriting any record already there), reset the results buffer for
that id, and forward the announcement to ContentAgent. -/
def handle_task_assignment (s : MotherState) (announcement? : Option Announcement) :
    MotherState × List SentMsg :=
  match announcement? with
  | none => (s, [])
  | some ann =>
    let task_id := ann.id
    let rec1 : TaskRec := { announcement := ann, status := .generating_content }
    ( { active_tasks := dinsert task_id rec1 s.active_tasks,
        results_buffer := dinsert task_id [] s.results_buffer },
      [.task_assignment "ContentAgent" ann task_id] )

/-- MotherAgent._handle_content_generated: on missing announcement or content
log and return; on an id with no active record log a warning and return; else
move the record to `'posting'`, store the content and send one POST_REQUEST
to each platform agent (payload details beyond receiver and task_id elided —
no coordinator reads them back). -/
def handle_content_generated (s : MotherState) (announcement? : Option Announcement)
    (generated_content? : Option GeneratedContent) : MotherState × List SentMsg :=
  match announcement?, generated_content? with
  | some ann, some gc =>
    let task_id := ann.id
    match dlookup task_id s.active_tasks with
    | none => (s, [])
    | some rec1 =>
      let rec2 : TaskRec := { rec1 with status := .posting, generated_content := some gc }
      ( { s with active_tasks := dinsert task_id rec2 s.active_tasks },
        platform_agents.map (fun a => .post_request a task_id) )
  | _, _ => (s, [])

/-- MotherAgent._finalize_task: return if the id has no record; else count
successes over the buffered results, report STATUS_UPDATE (`completed` when
at least one platform succeeded, else `failed`) to FatherAgent with the
per-platform breakdown, and delete both the record and its buffer. -/
def finalize_task (s : MotherState) (task_id : String) : MotherState × List SentMsg :=
  if dmem task_id s.active_tasks = false then (s, [])
  else
    let results := (dlookup task_id s.results_buffer).getD []
    let success_count := (results.filter (fun p => p.2.success)).length
    let status := if 0 < success_count then "completed" else "failed"
    ( { active_tasks := derase task_id s.active_tasks,
        results_buffer := derase task_id s.results_buffer },
      [.status_update "FatherAgent" status task_id
        (results.map (fun p => (p.1, p.2.success, p.2.url, p.2.error)))] )

/-- The task-lookup loop of MotherAgent._handle_post_result: the first record
(in dict insertion order) whose status is `'posting'`; the message's own
correlation information plays no part. -/
def findPostingTask : Dict TaskRec → Option String
  | [] => none
  | (tid, rec1) :: t => if rec1.status = .posting then some tid else findPostingTask t

/-- Tail of MotherAgent._handle_post_result once a task id was selected and
its buffer found: record the result under the platform key, then finalize
when `len(results_buffer[task_id]) >= len(platform_agents)`. -/
def recordResult (s : MotherState) (task_id pf : String) (r : PostResult)
    (buf : Dict PostResult) : MotherState × List SentMsg :=
  let buf2 := dinsert pf r buf
  let s2 : MotherState := { s with results_buffer := dinsert task_id buf2 s.results_buffer }
  if expected_count ≤ buf2.length then finalize_task s2 task_id else (s2, [])

/-- MotherAgent._handle_post_result: drop the message when the platform field
is missing (or an empty — falsy — string) or the result field is missing;
pick the first record in `'posting'` state (warn and drop when there is
none); look up that id's buffer (`self.results_buffer[task_id]` raises
KeyError — `none` here — when absent); record and maybe finalize. -/
def handle_post_result (s : MotherState) (platform? : Option String)
    (result? : Option PostResult) : Option (MotherState × List SentMsg) :=
  match platform?, result? with
  | some pf, some r =>
    if pf = "" then some (s, [])
    else
      match findPostingTask s.active_tasks with
      | none => some (s, [])
      | some task_id =>
        match dlookup task_id s.results_buffer with
        | none => none
        | some buf => some (recordResult s task_id pf r buf)
  | _, _ => some (s, [])

/-- A POST_RESULT payload as a platform agent builds it — `'platform'` and
`'result'` only, no task id (social_agents_part1.TwitterAgent
._handle_post_request sends `\x7b'platform': 'twitter', 'result': result\x7d`). -/
structure PRMsg where
  platform : Option String
  result : Option PostResult
deriving DecidableEq, Repr

/-- The POST_RESULT reply TwitterAgent sends back to MotherAgent for a
publish outcome `r`. -/
def twitter_post_result (r : PostResult) : PRMsg :=
  { platform := some "twitter", result := some r }

/-- Process a sequence of POST_RESULT messages through
MotherAgent._handle_post_result, accumulating sent messages; `none` when any
handler run raises. -/
def runPostResults (s : MotherState) : List PRMsg → Option (MotherState × List SentMsg)
  | [] => some (s, [])
  | m :: ms =>
    match handle_post_result s m.platform m.result with
    | none => none
    | some (s1, evs1) =>
      match runPostResults s1 ms with
      | none => none
      | some (s2, evs2) => some (s2, evs1 ++ evs2)

/-- The ids a batch of sent messages reports as finalized (finalization is
exactly the sending of a STATUS_UPDATE completion report). -/
def finalizedIds (msgs : List SentMsg) : List String :=
  msgs.filterMap (fun m => match m with
    | .status_update _ _ aid _ => some aid
    | _ => none)

theorem dlookup_dinsert (k k' : String) (v : α) (d : Dict α) :
    dlookup k' (dinsert k v d) = if k = k' then some v else dlookup k' d := by
  induction d with
  | nil => simp only [dinsert, dlookup]
  | cons p t ih =>
    obtain ⟨k0, v0⟩ := p
    by_cases h1 : k0 = k
    · subst h1
      simp only [dinsert, if_pos rfl, dlookup]
      split_ifs <;> rfl
    · simp only [dinsert, if_neg h1, dlookup, ih]
      split_ifs <;> simp_all

theorem dmem_dinsert (k k' : String) (v : α) (d : Dict α) :
    dmem k' (dinsert k v d) = (k = k' || dmem k' d) := by
  simp only [dmem, dlookup_dinsert]
  split_ifs with h <;> simp [h]

theorem dkeys_dinsert (k : String) (v : α) (d : Dict α) :
    dkeys (dinsert k v d) = if dmem k d then dkeys d else dkeys d ++ [k] := by
  induction d with
  | nil => simp [dinsert, dmem, dlookup, dkeys]
  | cons p t ih =>
    obtain ⟨k0, v0⟩ := p
    by_cases h1 : k0 = k
    · subst h1
      simp [dinsert, dmem, dlookup, dkeys]
    · simp only [dinsert, if_neg h1, dkeys, List.map_cons, dmem, dlookup]
      simp only [dmem, dkeys] at ih
      rw [ih]
      split_ifs <;> simp

theorem dmem_mem_keys (k : String) (d : Dict α) : dmem k d = true ↔ k ∈ dkeys d := by
  induction d with
  | nil => simp [dmem, dlookup, dkeys]
  | cons p t ih =>
    obtain ⟨k0, v0⟩ := p
    by_cases h1 : k0 = k
    · subst h1
      simp [dmem, dlookup, dkeys]
    · simp only [dmem, dlookup, if_neg h1, dkeys, List.map_cons, List.mem_cons]
      simp only [dmem, dkeys] at ih
      rw [ih]
      constructor
      · exact fun h => Or.inr h
      · rintro (h | h)
        · exact absurd h.symm h1
        · exact h

theorem dkeys_derase (k : String) (d : Dict α) :
    dkeys (derase k d) = (dkeys d).filter (fun x => x != k) := by
  induction d with
  | nil => rfl
  | cons p t ih =>
    obtain ⟨k0, v0⟩ := p
    simp only [derase, dkeys, List.filter_cons, List.map_cons] at ih ⊢
    cases h : (k0 != k) <;> simp_all [derase, dkeys]

theorem dlookup_derase (k k' : String) (d : Dict α) :
    dlookup k' (derase k d) = if k' = k then none else dlookup k' d := by
  induction d with
  | nil =>
    simp only [derase, List.filter_nil, dlookup]
    split_ifs <;> rfl
  | cons p t ih =>
    obtain ⟨k0, v0⟩ := p
    simp only [derase, List.filter_cons] at ih ⊢
    by_cases hk : k0 = k
    · subst hk
      simp [ih]
      split_ifs with h2
      · rfl
      · have hne : ¬ (k0 = k') := fun hh => h2 hh.symm
        simp [dlookup, hne]
    · have hb : ((k0, v0).1 != k) = true := by simpa using hk
      simp only [hb, if_true, dlookup, ih]
      split_ifs <;> simp_all

theorem dlookup_mem (k : String) (v : α) (d : Dict α) (h : dlookup k d = some v) :
    (k, v) ∈ d := by
  induction d with
  | nil => simp [dlookup] at h
  | cons p t ih =>
    obtain ⟨k0, v0⟩ := p
    simp only [dlookup] at h
    by_cases h1 : k0 = k
    · rw [if_pos h1] at h
      subst h1
      obtain rfl : v0 = v := by simpa using h
      exact List.mem_cons_self _ _
    · rw [if_neg h1] at h
      exact List.mem_cons_of_mem _ (ih h)

theorem dinsert_length (k : String) (v : α) (d : Dict α) :
    (dinsert k v d).length = if dmem k d then d.length else d.length + 1 := by
  induction d with
  | nil => simp [dinsert, dmem, dlookup]
  | cons p t ih =>
    obtain ⟨k0, v0⟩ := p
    by_cases h1 : k0 = k
    · subst h1
      simp [dinsert, dmem, dlookup]
    · simp only [dinsert, if_neg h1, List.length_cons, dmem, dlookup, ih]
      split_ifs <;> rfl

theorem findPostingTask_dmem (d : Dict TaskRec) (t : String)
    (h : findPostingTask d = some t) : dmem t d = true := by
  induction d with
  | nil => simp [findPostingTask] at h
  | cons p tl ih =>
    obtain ⟨k0, rec0⟩ := p
    simp only [findPostingTask] at h
    by_cases hs : rec0.status = .posting
    · rw [if_pos hs] at h
      obtain rfl : k0 = t := by simpa using h
      simp [dmem, dlookup]
    · rw [if_neg hs] at h
      have hmem := ih h
      simp only [dmem, dlookup] at hmem ⊢
      by_cases h2 : k0 = t <;> simp [h2, hmem]

/-- Concrete work items for the concurrent-task scenarios. -/
def annA : Announcement :=
  { id := "a", title := "ta", content := "ca", url := "ua", date := ⟨2024, 1, 1⟩ }

def annB : Announcement :=
  { id := "b", title := "tb", content := "cb", url := "ub", date := ⟨2024, 1, 2⟩ }

/-- A task record already fanned out to the platforms. -/
def postingRec (ann : Announcement) : TaskRec :=
  { announcement := ann, status := .posting }

/-- MotherAgent with two tasks concurrently in the `'posting'` state, "a"
registered before "b", neither having received a result yet. -/
def twoTaskState : MotherState :=
  { active_tasks := [("a", postingRec annA), ("b", postingRec annB)],
    results_buffer := [("a", []), ("b", [])] }

/-- Claim C1 (failing-input evaluation): with tasks "a" and "b" both in the
publishing state, ANY POST_RESULT TwitterAgent reports — in particular the
one answering task "b"'s POST_REQUEST — is recorded under task "a", the
first record in `'posting'` state; the reply payload carries no task id at
all, so attribution cannot use one.  This contradicts the claim that a
result is attributed to the task whose task_id it carries. -/
theorem post_result_misattributed (r : PostResult) :
    handle_post_result twoTaskState (twitter_post_result r).platform
      (twitter_post_result r).result
      = some ({ active_tasks := [("a", postingRec annA), ("b", postingRec annB)],
                results_buffer := [("a", [("twitter", r)]), ("b", [])] }, []) := by
  rfl

/-- An outcome already buffered for the in-flight task of the duplicate
assignment scenario. -/
def resT : PostResult :=
  { success := true, platform := "twitter", url := some "https://t.co/x" }

/-- MotherAgent with one open task "a", already publishing, with one result
buffered. -/
def openStateA : MotherState :=
  { active_tasks := [("a", postingRec annA)],
    results_buffer := [("a", [("twitter", resT)])] }

/-- A re-scrape of the same announcement id "a" (different title/content). -/
def annA2 : Announcement :=
  { id := "a", title := "ta2", content := "ca2", url := "ua2", date := ⟨2024, 1, 3⟩ }

/-- Claim C2 (failing-input evaluation): a TASK_ASSIGNMENT for id "a" while
"a" already has an open, publishing record silently replaces the record
(status falls back to `'generating_content'`, the stored announcement and
content are discarded) and wipes the already-buffered result — and the
handler emits only the normal ContentAgent dispatch, no rejection and no
warning.  This contradicts the claim that a duplicate assignment is rejected
or merged and never silently overwrites the in-flight record. -/
theorem task_assignment_overwrites :
    handle_task_assignment openStateA (some annA2)
      = ({ active_tasks := [("a", { announcement := annA2, status := .generating_content })],
           results_buffer := [("a", [])] },
         [.task_assignment "ContentAgent" annA2 "a"]) := by
  rfl

/-- Claim C10: a POST_RESULT whose payload lacks the platform field or the
result field is dropped with no state change and no message sent (hence no
finalization). -/
theorem post_result_missing_field_dropped (s : MotherState) :
    (∀ result? : Option PostResult, handle_post_result s none result? = some (s, [])) ∧
    (∀ platform? : Option String, handle_post_result s platform? none = some (s, [])) := by
  constructor
  · intro result?
    cases result? <;> rfl
  · intro platform?
    cases platform? <;> rfl

theorem dmem_congr {α β : Type} (k : String) (d : Dict α) (d' : Dict β)
    (h : dkeys d = dkeys d') : dmem k d = dmem k d' := by
  by_cases h1 : k ∈ dkeys d
  · rw [(dmem_mem_keys k d).2 h1, (dmem_mem_keys k d').2 (h ▸ h1)]
  · have e1 : dmem k d = false := by
      cases hm : dmem k d
      · rfl
      · exact absurd ((dmem_mem_keys k d).1 hm) h1
    have e2 : dmem k d' = false := by
      cases hm : dmem k d'
      · rfl
      · exact absurd ((dmem_mem_keys k d').1 hm) (h ▸ h1)
    rw [e1, e2]

theorem finalize_task_keys (s : MotherState) (tid : String)
    (h : dkeys s.active_tasks = dkeys s.results_buffer) :
    dkeys (finalize_task s tid).1.active_tasks
      = dkeys (finalize_task s tid).1.results_buffer := by
  simp only [finalize_task]
  by_cases hc : dmem tid s.active_tasks = false
  · rw [if_pos hc]
    exact h
  · rw [if_neg hc]
    show dkeys (derase tid s.active_tasks) = dkeys (derase tid s.results_buffer)
    rw [dkeys_derase, dkeys_derase, h]

/-- Exhaustive description of the branches of
MotherAgent._handle_post_result on a present platform and result. -/
theorem handle_post_result_cases (s : MotherState) (pf : String) (r : PostResult) :
    (pf = "" ∧ handle_post_result s (some pf) (some r) = some (s, [])) ∨
    (pf ≠ "" ∧ findPostingTask s.active_tasks = none ∧
      handle_post_result s (some pf) (some r) = some (s, [])) ∨
    (∃ tid, pf ≠ "" ∧ findPostingTask s.active_tasks = some tid ∧
      dlookup tid s.results_buffer = none ∧
      handle_post_result s (some pf) (some r) = none) ∨
    (∃ tid buf, pf ≠ "" ∧ findPostingTask s.active_tasks = some tid ∧
      dlookup tid s.results_buffer = some buf ∧
      handle_post_result s (some pf) (some r) = some (recordResult s tid pf r buf)) := by
  by_cases hpf : pf = ""
  · exact Or.inl ⟨hpf, by simp [handle_post_result, hpf]⟩
  · cases hf : findPostingTask s.active_tasks with
    | none =>
      exact Or.inr (Or.inl ⟨hpf, rfl, by simp [handle_post_result, hpf, hf]⟩)
    | some tid =>
      cases hb : dlookup tid s.results_buffer with
      | none =>
        exact Or.inr (Or.inr (Or.inl ⟨tid, hpf, rfl, hb,
          by simp [handle_post_result, hpf, hf, hb]⟩))
      | some buf =>
        exact Or.inr (Or.inr (Or.inr ⟨tid, buf, hpf, rfl, hb,
          by simp [handle_post_result, hpf, hf, hb]⟩))

/-- Claim C8 (implicit invariant): when the key sets of `active_tasks` and
`results_buffer` agree, every complete MotherAgent handler run preserves the
agreement — the two entries are created together by a TASK_ASSIGNMENT,
content generation changes no key, a POST_RESULT records only under a key
already present (and the handler cannot raise), and finalization deletes
both entries together. -/
theorem mother_keys_agree (s : MotherState)
    (h : dkeys s.active_tasks = dkeys s.results_buffer) :
    (∀ ann?, dkeys (handle_task_assignment s ann?).1.active_tasks
        = dkeys (handle_task_assignment s ann?).1.results_buffer) ∧
    (∀ ann? gc?, dkeys (handle_content_generated s ann? gc?).1.active_tasks
        = dkeys (handle_content_generated s ann? gc?).1.results_buffer) ∧
    (∀ platform? result?, (handle_post_result s platform? result?).isSome = true) ∧
    (∀ platform? result? s1 evs, handle_post_result s platform? result? = some (s1, evs) →
        dkeys s1.active_tasks = dkeys s1.results_buffer) := by
  refine ⟨?_, ?_, ?_, ?_⟩
  · intro ann?
    cases ann? with
    | none => exact h
    | some ann =>
      simp only [handle_task_assignment]
      rw [dkeys_dinsert, dkeys_dinsert, dmem_congr ann.id s.active_tasks s.results_buffer h, h]
  · intro ann? gc?
    cases ann? with
    | none => exact h
    | some ann =>
      cases gc? with
      | none => exact h
      | some gc =>
        simp only [handle_content_generated]
        cases hl : dlookup ann.id s.active_tasks with
        | none => exact h
        | some rec1 =>
          simp only
          rw [dkeys_dinsert]
          have hm : dmem ann.id s.active_tasks = true := by simp [dmem, hl]
          rw [hm, if_pos rfl]
          exact h
  · intro platform? result?
    cases platform? with
    | none => cases result? <;> rfl
    | some pf =>
      cases result? with
      | none => rfl
      | some r =>
        simp only [handle_post_result]
        by_cases hpf : pf = ""
        · simp [hpf]
        · rw [if_neg hpf]
          cases hf : findPostingTask s.active_tasks with
          | none => rfl
          | some tid =>
            have hm : dmem tid s.active_tasks = true := findPostingTask_dmem _ _ hf
            have hm' : dmem tid s.results_buffer = true := by
              rw [← dmem_congr tid _ _ h]
              exact hm
            simp only [dmem] at hm'
            cases hb : dlookup tid s.results_buffer with
            | none => rw [hb] at hm'; simp at hm'
            | some buf => simp [hb]
  · intro platform? result? s1 evs hstep
    cases platform? with
    | none =>
      cases result? <;>
        · simp only [handle_post_result, Option.some.injEq, Prod.mk.injEq] at hstep
          obtain ⟨rfl, -⟩ := hstep
          exact h
    | some pf =>
      cases result? with
      | none =>
        simp only [handle_post_result, Option.some.injEq, Prod.mk.injEq] at hstep
        obtain ⟨rfl, -⟩ := hstep
        exact h
      | some r =>
        rcases handle_post_result_cases s pf r with
          ⟨-, he⟩ | ⟨-, -, he⟩ | ⟨tid, -, -, -, he⟩ | ⟨tid, buf, -, hf, hb, he⟩
        · rw [he] at hstep
          obtain ⟨rfl, -⟩ : s = s1 ∧ [] = evs := by simpa using hstep
          exact h
        · rw [he] at hstep
          obtain ⟨rfl, -⟩ : s = s1 ∧ [] = evs := by simpa using hstep
          exact h
        · rw [he] at hstep
          exact absurd hstep (by simp)
        · rw [he] at hstep
          have heq := Option.some.inj hstep
          have hm : dmem tid s.active_tasks = true := findPostingTask_dmem _ _ hf
          have hkeys2 : dkeys s.active_tasks
              = dkeys (dinsert tid (dinsert pf r buf) s.results_buffer) := by
            rw [dkeys_dinsert]
            have hmb : dmem tid s.results_buffer = true := by
              rw [← dmem_congr tid _ _ h]
              exact hm
            rw [hmb, if_pos rfl]
            exact h
          simp only [recordResult] at heq
          split_ifs at heq with hc
          · have hk := finalize_task_keys
              { s with results_buffer := dinsert tid (dinsert pf r buf) s.results_buffer }
              tid hkeys2
            rw [heq] at hk
            exact hk
          · obtain ⟨rfl, -⟩ : _ ∧ [] = evs := by simpa using heq
            exact hkeys2

theorem mother_keys_agree_witness :
    dkeys (handle_task_assignment twoTaskState (some annB)).1.active_tasks
      = dkeys (handle_task_assignment twoTaskState (some annB)).1.results_buffer ∧
    (handle_post_result twoTaskState (some "twitter") (some resT)).isSome = true :=
  ⟨(mother_keys_agree twoTaskState rfl).1 (some annB),
   (mother_keys_agree twoTaskState rfl).2.2.1 (some "twitter") (some resT)⟩

theorem dmem_derase (k t : String) (d : Dict α) :
    dmem t (derase k d) = if t = k then false else dmem t d := by
  simp only [dmem, dlookup_derase]
  split_ifs <;> rfl

/-- Complete branch description of MotherAgent._handle_post_result on a
present platform and result: either the message is dropped, or the result is
recorded without reaching the expected count, or it is recorded and the
selected task is finalized. -/
theorem handle_post_result_shape (s : MotherState) (pf : String) (r : PostResult)
    (s1 : MotherState) (evs : List SentMsg)
    (hstep : handle_post_result s (some pf) (some r) = some (s1, evs)) :
    ((pf = "" ∨ findPostingTask s.active_tasks = none) ∧ evs = [] ∧ s1 = s) ∨
    (∃ tid buf, pf ≠ "" ∧ findPostingTask s.active_tasks = some tid ∧
      dlookup tid s.results_buffer = some buf ∧
      ¬ expected_count ≤ (dinsert pf r buf).length ∧ evs = [] ∧
      s1 = { s with results_buffer := dinsert tid (dinsert pf r buf) s.results_buffer }) ∨
    (∃ tid buf st res, pf ≠ "" ∧ findPostingTask s.active_tasks = some tid ∧
      dlookup tid s.results_buffer = some buf ∧
      expected_count ≤ (dinsert pf r buf).length ∧
      evs = [.status_update "FatherAgent" st tid res] ∧
      s1 = { active_tasks := derase tid s.active_tasks,
             results_buffer :=
               derase tid (dinsert tid (dinsert pf r buf) s.results_buffer) }) := by
  rcases handle_post_result_cases s pf r with
    ⟨hpf, he⟩ | ⟨hpf, hf, he⟩ | ⟨tid, hpf, hf, hb, he⟩ | ⟨tid, buf, hpf, hf, hb, he⟩
  · rw [he] at hstep
    obtain ⟨rfl, hevs⟩ : s = s1 ∧ [] = evs := by simpa using hstep
    exact Or.inl ⟨Or.inl hpf, hevs.symm, rfl⟩
  · rw [he] at hstep
    obtain ⟨rfl, hevs⟩ : s = s1 ∧ [] = evs := by simpa using hstep
    exact Or.inl ⟨Or.inr hf, hevs.symm, rfl⟩
  · rw [he] at hstep
    exact absurd hstep (by simp)
  · rw [he] at hstep
    have hrr : recordResult s tid pf r buf = (s1, evs) := Option.some.inj hstep
    simp only [recordResult] at hrr
    have hmem : dmem tid s.active_tasks = true := findPostingTask_dmem _ _ hf
    by_cases hc : expected_count ≤ (dinsert pf r buf).length
    · rw [if_pos hc] at hrr
      simp only [finalize_task] at hrr
      rw [if_neg (by simp [hmem])] at hrr
      have h1 := congrArg Prod.fst hrr
      have h2 := congrArg Prod.snd hrr
      dsimp only at h1 h2
      subst h1
      subst h2
      exact Or.inr (Or.inr ⟨tid, buf, _, _, hpf, hf, hb, hc, rfl, rfl⟩)
    · rw [if_neg hc] at hrr
      have h1 := congrArg Prod.fst hrr
      have h2 := congrArg Prod.snd hrr
      dsimp only at h1 h2
      subst h1
      subst h2
      exact Or.inr (Or.inl ⟨tid, buf, hpf, hf, hb, hc, rfl, rfl⟩)

/-- The `results_buffer` bound under which the fan-in counter is meaningful:
every buffered result map is still short of the number of dispatched
endpoints (holds on creation, where the buffer is reset to empty, and is
re-established by every POST_RESULT because reaching the bound finalizes and
deletes the buffer). -/
def BufInv (s : MotherState) : Prop :=
  ∀ p ∈ s.results_buffer, p.2.length < expected_count

/-- A single POST_RESULT handler run finalizes `t` exactly when `t` is the
selected publishing task and the recorded-result count reaches the number of
dispatched endpoints. -/
theorem step_finalized_iff (s : MotherState) (hInv : BufInv s) (pf : String)
    (hpf : pf ≠ "") (r : PostResult) (s1 : MotherState) (evs : List SentMsg)
    (hstep : handle_post_result s (some pf) (some r) = some (s1, evs)) (t : String) :
    t ∈ finalizedIds evs ↔
      (findPostingTask s.active_tasks = some t ∧
       ∃ buf, dlookup t s.results_buffer = some buf ∧
         (dinsert pf r buf).length = expected_count) := by
  rcases handle_post_result_shape s pf r s1 evs hstep with
    ⟨hA, rfl, rfl⟩ | ⟨tid, buf, -, hf, hb, hc, rfl, rfl⟩ |
    ⟨tid, buf, st, res, -, hf, hb, hc, rfl, rfl⟩
  · simp only [finalizedIds, List.filterMap_nil, List.not_mem_nil, false_iff]
    rintro ⟨hfind, -⟩
    rcases hA with h1 | h1
    · exact hpf h1
    · rw [h1] at hfind
      exact Option.noConfusion hfind
  · simp only [finalizedIds, List.filterMap_nil, List.not_mem_nil, false_iff]
    rintro ⟨hfind, buf0, hb0, hlen⟩
    rw [hf] at hfind
    obtain rfl := Option.some.inj hfind
    rw [hb] at hb0
    obtain rfl := Option.some.inj hb0
    exact hc (by omega)
  · have hids : finalizedIds [SentMsg.status_update "FatherAgent" st tid res] = [tid] := by
      simp [finalizedIds]
    rw [hids, List.mem_singleton]
    constructor
    · rintro rfl
      refine ⟨hf, buf, hb, ?_⟩
      have hlt : buf.length < expected_count := hInv _ (dlookup_mem _ _ _ hb)
      have hdl := dinsert_length pf r buf
      have hle : (dinsert pf r buf).length ≤ buf.length + 1 := by
        rw [hdl]
        split_ifs <;> omega
      omega
    · rintro ⟨hfind, -⟩
      rw [hf] at hfind
      exact (Option.some.inj hfind).symm

/-- Any single POST_RESULT handler run either finalizes nothing and adds no
task record, or finalizes exactly the one selected (previously open) task and
deletes its record. -/
theorem step_events (s : MotherState) (platform? : Option String)
    (result? : Option PostResult) (s1 : MotherState) (evs : List SentMsg)
    (hstep : handle_post_result s platform? result? = some (s1, evs)) :
    (finalizedIds evs = [] ∧ s1.active_tasks = s.active_tasks) ∨
    (∃ tid, finalizedIds evs = [tid] ∧ dmem tid s.active_tasks = true ∧
      s1.active_tasks = derase tid s.active_tasks) := by
  cases platform? with
  | none =>
    cases result? <;>
      · obtain ⟨rfl, hevs⟩ : s = s1 ∧ [] = evs := by
          simpa [handle_post_result] using hstep
        exact Or.inl ⟨by rw [← hevs]; rfl, rfl⟩
  | some pf =>
    cases result? with
    | none =>
      obtain ⟨rfl, hevs⟩ : s = s1 ∧ [] = evs := by
        simpa [handle_post_result] using hstep
      exact Or.inl ⟨by rw [← hevs]; rfl, rfl⟩
    | some r =>
      rcases handle_post_result_shape s pf r s1 evs hstep with
        ⟨-, rfl, rfl⟩ | ⟨tid, buf, -, hf, hb, hc, rfl, rfl⟩ |
        ⟨tid, buf, st, res, -, hf, hb, hc, rfl, rfl⟩
      · exact Or.inl ⟨rfl, rfl⟩
      · exact Or.inl ⟨rfl, rfl⟩
      · exact Or.inr ⟨tid, by simp [finalizedIds], findPostingTask_dmem _ _ hf, rfl⟩

theorem run_no_finalize_when_absent (msgs : List PRMsg) (s : MotherState)
    (s2 : MotherState) (evs2 : List SentMsg)
    (hrun : runPostResults s msgs = some (s2, evs2)) (t : String)
    (h : dmem t s.active_tasks = false) : (finalizedIds evs2).count t = 0 := by
  induction msgs generalizing s s2 evs2 with
  | nil =>
    obtain ⟨rfl, rfl⟩ : s = s2 ∧ [] = evs2 := by
      simpa [runPostResults] using hrun
    simp [finalizedIds]
  | cons m ms ih =>
    simp only [runPostResults] at hrun
    split at hrun
    · exact absurd hrun (by simp)
    · rename_i s1 evs1 hstep
      split at hrun
      · exact absurd hrun (by simp)
      · rename_i s2' evs2' hrun2
        obtain ⟨rfl, rfl⟩ : s2' = s2 ∧ evs1 ++ evs2' = evs2 := by simpa using hrun
        have habs1 : dmem t s1.active_tasks = false := by
          rcases step_events s m.platform m.result s1 evs1 hstep with
            ⟨-, hact⟩ | ⟨tid, -, -, hact⟩
          · rw [hact]
            exact h
          · rw [hact, dmem_derase]
            split_ifs <;> simp [h]
        have hcount1 : (finalizedIds evs1).count t = 0 := by
          rcases step_events s m.platform m.result s1 evs1 hstep with
            ⟨hids, -⟩ | ⟨tid, hids, hmem, -⟩
          · simp [hids]
          · rw [hids]
            have hne : ¬ (t = tid) := by
              rintro rfl
              rw [hmem] at h
              exact Bool.noConfusion h
            simp [List.count_cons, hne]
        rw [finalizedIds, List.filterMap_append, List.count_append]
        rw [finalizedIds] at hcount1
        rw [hcount1, Nat.zero_add]
        exact ih s1 s2' evs2' hrun2 habs1

theorem run_finalize_at_most_once (msgs : List PRMsg) (s : MotherState)
    (s2 : MotherState) (evs2 : List SentMsg)
    (hrun : runPostResults s msgs = some (s2, evs2)) (t : String) :
    (finalizedIds evs2).count t ≤ 1 := by
  induction msgs generalizing s s2 evs2 with
  | nil =>
    obtain ⟨rfl, rfl⟩ : s = s2 ∧ [] = evs2 := by
      simpa [runPostResults] using hrun
    simp [finalizedIds]
  | cons m ms ih =>
    simp only [runPostResults] at hrun
    split at hrun
    · exact absurd hrun (by simp)
    · rename_i s1 evs1 hstep
      split at hrun
      · exact absurd hrun (by simp)
      · rename_i s2' evs2' hrun2
        obtain ⟨rfl, rfl⟩ : s2' = s2 ∧ evs1 ++ evs2' = evs2 := by simpa using hrun
        rw [finalizedIds, List.filterMap_append, List.count_append]
        rcases step_events s m.platform m.result s1 evs1 hstep with
          ⟨hids, -⟩ | ⟨tid, hids, hmem, hact⟩
        · rw [finalizedIds] at hids
          rw [hids]
          simpa using ih s1 s2' evs2' hrun2
        · rw [finalizedIds] at hids
          rw [hids]
          by_cases ht : t = tid
          · subst ht
            have hgone : dmem t s1.active_tasks = false := by
              rw [hact, dmem_derase, if_pos rfl]
            have h0 := run_no_finalize_when_absent ms s1 s2' evs2' hrun2 t hgone
            rw [finalizedIds] at h0
            rw [h0]
            simp
          · have h1 : (List.count t [tid]) = 0 := by
              simp [List.count_cons, ht]
            rw [h1, Nat.zero_add]
            exact ih s1 s2' evs2' hrun2

/-- Claim C3: a POST_RESULT handler run finalizes a task (sends its
STATUS_UPDATE completion report, which also deletes the record) exactly when
that task is the one selected and its recorded-result count reaches the
number of dispatched publishing endpoints — never before that count is
reached — and over any whole sequence of POST_RESULT deliveries a given task
id is finalized at most once. -/
theorem finalize_exactly_once
    (s : MotherState) (hInv : BufInv s)
    (pf : String) (hpf : pf ≠ "") (r : PostResult)
    (s1 : MotherState) (evs : List SentMsg)
    (hstep : handle_post_result s (some pf) (some r) = some (s1, evs))
    (msgs : List PRMsg) (s2 : MotherState) (evs2 : List SentMsg)
    (hrun : runPostResults s msgs = some (s2, evs2)) (t : String) :
    (t ∈ finalizedIds evs ↔
      (findPostingTask s.active_tasks = some t ∧
       ∃ buf, dlookup t s.results_buffer = some buf ∧
         (dinsert pf r buf).length = expected_count)) ∧
    (finalizedIds evs2).count t ≤ 1 :=
  ⟨step_finalized_iff s hInv pf hpf r s1 evs hstep t,
   run_finalize_at_most_once msgs s s2 evs2 hrun t⟩

/-- Four of the five platform results already buffered for task "a". -/
def buf4 : Dict PostResult :=
  [("twitter", resT), ("facebook", resT), ("instagram", resT), ("linkedin", resT)]

/-- MotherAgent one result short of finalizing task "a". -/
def nearDoneState : MotherState :=
  { active_tasks := [("a", postingRec annA)], results_buffer := [("a", buf4)] }

/-- The state after task "a" is finalized. -/
def finalStateW : MotherState :=
  { active_tasks := [], results_buffer := [] }

/-- The completion report emitted when the fifth result arrives for "a". -/
def evsW : List SentMsg :=
  [.status_update "FatherAgent" "completed" "a"
    [("twitter", true, some "https://t.co/x", none),
     ("facebook", true, some "https://t.co/x", none),
     ("instagram", true, some "https://t.co/x", none),
     ("linkedin", true, some "https://t.co/x", none),
     ("reddit", true, some "https://t.co/x", none)]]

theorem finalize_exactly_once_witness :
    (("a" ∈ finalizedIds evsW) ↔
      (findPostingTask nearDoneState.active_tasks = some "a" ∧
       ∃ buf, dlookup "a" nearDoneState.results_buffer = some buf ∧
         (dinsert "reddit" resT buf).length = expected_count)) ∧
    (finalizedIds evsW).count "a" ≤ 1 :=
  finalize_exactly_once nearDoneState (by unfold BufInv; decide) "reddit" (by decide) resT
    finalStateW evsW (by decide)
    [⟨some "reddit", some resT⟩] finalStateW evsW (by decide) "a"

/-- ContentAgent._fallback_generate: the deterministic no-LLM content built
from the raw announcement fields alone. -/
def fallback_generate (a : Announcement) : GeneratedContent :=
  { title_zh := a.title,
    title_en := "Congratulations! " ++ a.title,
    content_zh := "🎉 恭喜！" ++ a.content,
    content_en := "🎉 Congratulations! We are proud to announce this achievement.",
    hashtags_zh := ["#陽明交大", "#AI學院", "#獲獎", "#人工智慧", "#研究"],
    hashtags_en := ["#NYCU", "#AI", "#Award", "#Research", "#Achievement"],
    platform_specific := [("twitter", "🎉 " ++ a.title.take 200 ++ " #NYCU #AI #Award")] }

/-- Outcome of the ContentAgent's LLM collaborator across one
generate_content call.  Each sub-call (Chinese text, English text, hashtags,
platform variant) catches its own timeout and substitutes a default, so a
completed round is summarised by the five produced pieces; an exception
escaping any sub-call into generate_content's own try block is
`exceptionRaised`. -/
inductive LLMOutcome where
  | ok (content_zh : String) (title_en : String) (content_en : String)
      (hashtags_zh : List String) (hashtags_en : List String) (twitter_text : String)
  | exceptionRaised
deriving DecidableEq, Repr

/-- ContentAgent.generate_content: with no initialised LLM, fall back; with
an exception during generation, fall back; otherwise assemble the
GeneratedContent from the sub-call outputs.  Every path returns content. -/
def generate_content (llm_initialized : Bool) (outcome : LLMOutcome)
    (a : Announcement) : Option GeneratedContent :=
  if llm_initialized = false then some (fallback_generate a)
  else
    match outcome with
    | .exceptionRaised => some (fallback_generate a)
    | .ok zh ti en hz he tw =>
      some { title_zh := a.title, title_en := ti, content_zh := zh, content_en := en,
             hashtags_zh := hz, hashtags_en := he, platform_specific := [("twitter", tw)] }

/-- A CONTENT_GENERATED message as ContentAgent sends it to MotherAgent. -/
structure ContentReply where
  receiver : String
  announcement : Announcement
  generated_content : GeneratedContent
deriving DecidableEq, Repr

/-- ContentAgent._handle_task_assignment: with no announcement in the
payload, do nothing; else run generate_content and, when it yields content,
reply CONTENT_GENERATED to MotherAgent. -/
def content_handle_task_assignment (llm_initialized : Bool) (outcome : LLMOutcome)
    (announcement? : Option Announcement) : List ContentReply :=
  match announcement? with
  | none => []
  | some a =>
    match generate_content llm_initialized outcome a with
    | none => []
    | some c => [{ receiver := "MotherAgent", announcement := a, generated_content := c }]

/-- Claim C5: when the enrichment collaborator fails (LLM never initialised)
or its generation raises/times out, MotherAgent still receives a
CONTENT_GENERATED message carrying the non-null deterministic fallback built
from the raw announcement fields — and feeding that very message to
MotherAgent's CONTENT_GENERATED handler moves the task to the `'posting'`
state and fans out one POST_REQUEST per publishing endpoint, so the pipeline
proceeds instead of stalling. -/
theorem enrichment_failure_fallback (llm_initialized : Bool) (outcome : LLMOutcome)
    (a : Announcement)
    (hfail : llm_initialized = false ∨ outcome = .exceptionRaised) :
    content_handle_task_assignment llm_initialized outcome (some a)
      = [{ receiver := "MotherAgent", announcement := a,
           generated_content := fallback_generate a }] ∧
    (∀ s : MotherState, ∀ rec1 : TaskRec, dlookup a.id s.active_tasks = some rec1 →
      (handle_content_generated s (some a) (some (fallback_generate a))).1.active_tasks
          = dinsert a.id
              { rec1 with status := .posting,
                          generated_content := some (fallback_generate a) }
              s.active_tasks ∧
      (handle_content_generated s (some a) (some (fallback_generate a))).2
          = platform_agents.map (fun ag => .post_request ag a.id)) := by
  constructor
  · rcases hfail with rfl | rfl
    · rfl
    · simp only [content_handle_task_assignment, generate_content]
      split_ifs <;> rfl
  · intro s rec1 hl
    simp [handle_content_generated, hl]

theorem enrichment_failure_fallback_witness :
    content_handle_task_assignment false .exceptionRaised (some annA)
      = [{ receiver := "MotherAgent", announcement := annA,
           generated_content := fallback_generate annA }] ∧
    (handle_content_generated twoTaskState (some annA)
        (some (fallback_generate annA))).2
      = platform_agents.map (fun ag => .post_request ag annA.id) :=
  ⟨(enrichment_failure_fallback false .exceptionRaised annA (Or.inl rfl)).1,
   ((enrichment_failure_fallback false .exceptionRaised annA (Or.inl rfl)).2
      twoTaskState (postingRec annA) (by decide)).2⟩

/-- Behaviour of one subscriber callback when invoked on a message: it
either completes or raises. -/
inductive CBBehavior where
  | succeeds
  | raisesException
deriving DecidableEq, Repr

/-- Python `await callback(message)` for a callback tagged with an id. -/
def invokeCallback : CBBehavior → Except String Unit
  | .succeeds => .ok ()
  | .raisesException => .error "回調執行錯誤"

/-- The subscriber loop of MessageBus._process_message: invoke each callback
in list order inside a try block; an exception is caught and logged (the
`false` outcome) and the loop continues with the next callback. -/
def runCallbacks : List (Nat × CBBehavior) → List (Nat × Bool)
  | [] => []
  | (i, b) :: rest =>
    match invokeCallback b with
    | .ok _ => (i, true) :: runCallbacks rest
    | .error _ => (i, false) :: runCallbacks rest

/-- MessageBus state: the per-name subscriber lists (a defaultdict of lists)
and the registered agent names. -/
structure BusState where
  subscribers : Dict (List (Nat × CBBehavior))
  agents : List String
deriving Repr

/-- MessageBus.subscribe: `self.subscribers[agent_name].append(callback)` —
a missing name defaults to the empty list, and the callback is appended at
the end, so callbacks sit in registration order. -/
def busSubscribe (s : BusState) (agent_name : String) (cb : Nat × CBBehavior) : BusState :=
  { s with
    subscribers :=
      dinsert agent_name ((dlookup agent_name s.subscribers).getD [] ++ [cb])
        s.subscribers }

/-- MessageBus._process_message: deliver to the registered receiver (if
any), then invoke every callback subscribed under the receiver's name. -/
def processMessage (s : BusState) (receiver : String) :
    Option String × List (Nat × Bool) :=
  ( if s.agents.contains receiver then some receiver else none,
    runCallbacks ((dlookup receiver s.subscribers).getD []) )

theorem runCallbacks_fst (cbs : List (Nat × CBBehavior)) :
    (runCallbacks cbs).map Prod.fst = cbs.map Prod.fst := by
  induction cbs with
  | nil => rfl
  | cons p t ih =>
    obtain ⟨i, b⟩ := p
    cases b <;> simp [runCallbacks, invokeCallback, ih]

/-- Claim C6: when the bus drains an envelope, every callback subscribed
under the envelope's receiver name is invoked, in registration order
(subscribe appends at the end of the receiver's list); a raising callback's
exception is caught and converted to a logged failure outcome, never
propagated, and the remaining callbacks still run. -/
theorem process_message_callbacks (cbs rest : List (Nat × CBBehavior)) (i : Nat)
    (s : BusState) (receiver : String)
    (hsub : dlookup receiver s.subscribers = some cbs) :
    (processMessage s receiver).2.map Prod.fst = cbs.map Prod.fst ∧
    runCallbacks ((i, .raisesException) :: rest) = (i, false) :: runCallbacks rest ∧
    (∀ name cb, dlookup name (busSubscribe s name cb).subscribers
        = some ((dlookup name s.subscribers).getD [] ++ [cb])) := by
  refine ⟨?_, rfl, ?_⟩
  · simp only [processMessage, hsub, Option.getD_some]
    exact runCallbacks_fst cbs
  · intro name cb
    simp [busSubscribe, dlookup_dinsert]

/-- Three callbacks under "MotherAgent", the middle one raising. -/
def busW : BusState :=
  { subscribers := [("MotherAgent", [(0, .succeeds), (1, .raisesException), (2, .succeeds)])],
    agents := ["MotherAgent"] }

theorem process_message_callbacks_witness :
    (processMessage busW "MotherAgent").2.map Prod.fst
      = [(0, CBBehavior.succeeds), (1, .raisesException), (2, .succeeds)].map Prod.fst ∧
    runCallbacks [(1, CBBehavior.raisesException)] = [(1, false)] :=
  ⟨(process_message_callbacks
      [(0, .succeeds), (1, .raisesException), (2, .succeeds)] [] 1 busW "MotherAgent" rfl).1,
   (process_message_callbacks
      [(0, .succeeds), (1, .raisesException), (2, .succeeds)] [] 1 busW "MotherAgent" rfl).2.1⟩

/-- FatherAgent's mutable state: its pending set and the four counters. -/
structure FatherState where
  pending_announcements : Dict Announcement
  received : Nat
  forwarded : Nat
  completed : Nat
  failed : Nat
deriving DecidableEq, Repr

/-- The TASK_ASSIGNMENT payload FatherAgent forwards (announcement plus
computed priority; the timestamp field is wall-clock only). -/
structure FatherSend where
  receiver : String
  announcement : Announcement
  priority : Nat
deriving DecidableEq, Repr

/-- FatherAgent._handle_new_announcement: reject a missing announcement;
else count it, remember it as pending and forward it to MotherAgent with its
computed priority. -/
def father_handle_new_announcement (s : FatherState)
    (announcement? : Option Announcement) : FatherState × List FatherSend :=
  match announcement? with
  | none => (s, [])
  | some ann =>
    ( { s with
        received := s.received + 1,
        pending_announcements := dinsert ann.id ann s.pending_announcements,
        forwarded := s.forwarded + 1 },
      [{ receiver := "MotherAgent", announcement := ann,
         priority := calculate_priority ann }] )

/-- FatherAgent._handle_status_update: on `'completed'` bump the counter and
drop the id from the pending set (when present); on `'failed'` bump the
failed counter only; any other status changes nothing (the handler then just
prints the stats snapshot). -/
def father_handle_status_update (s : FatherState)
    (status? announcement_id? : Option String) : FatherState :=
  if status? = some "completed" then
    let s1 := { s with completed := s.completed + 1 }
    match announcement_id? with
    | some aid =>
      if dmem aid s1.pending_announcements then
        { s1 with pending_announcements := derase aid s1.pending_announcements }
      else s1
    | none => s1
  else if status? = some "failed" then
    { s with failed := s.failed + 1 }
  else s

/-- Claim C9: FatherAgent removes a pending entry only on a STATUS_UPDATE
with status `'completed'`; on `'failed'` the failed counter is bumped and
the pending set is untouched, so entries for failed announcements are never
removed. -/
theorem father_pending_removed_only_on_completed (s : FatherState)
    (status? announcement_id? : Option String)
    (h : status? ≠ some "completed") :
    (father_handle_status_update s status? announcement_id?).pending_announcements
        = s.pending_announcements ∧
    father_handle_status_update s (some "failed") announcement_id?
        = { s with failed := s.failed + 1 } ∧
    (∀ aid, dmem aid s.pending_announcements = true →
      father_handle_status_update s (some "completed") (some aid)
        = { s with completed := s.completed + 1,
                   pending_announcements := derase aid s.pending_announcements }) := by
  refine ⟨?_, ?_, ?_⟩
  · rw [father_handle_status_update, if_neg h]
    split_ifs <;> rfl
  · rw [father_handle_status_update, if_neg (by decide), if_pos rfl]
  · intro aid hmem
    rw [father_handle_status_update, if_pos rfl]
    simp [hmem]

/-- FatherAgent with one pending announcement "a". -/
def fatherW : FatherState :=
  { pending_announcements := [("a", annA)],
    received := 1, forwarded := 1, completed := 0, failed := 0 }

theorem father_pending_witness :
    (father_handle_status_update fatherW (some "failed") (some "a")).pending_announcements
        = fatherW.pending_announcements ∧
    father_handle_status_update fatherW (some "completed") (some "a")
        = { fatherW with completed := fatherW.completed + 1,
                         pending_announcements := derase "a" fatherW.pending_announcements } :=
  ⟨(father_pending_removed_only_on_completed fatherW (some "failed") (some "a")
      (by decide)).1,
   (father_pending_removed_only_on_completed fatherW (some "failed") (some "a")
      (by decide)).2.2 "a" (by decide)⟩

end NYCU
